import Mathlib

/-!
Verification development for the pylode graph-to-model extraction engine.

The RDF graph model and the extraction operations are shallowly embedded
from the two Python implementations:
the typed parser (`pylode/parser.py` with `pylode/model.py`) and the
map-based processor (`src/pylode/core/ontology_processor.py` together with
the uniqueness resolver of `src/pylode/core/html_generator.py`).

Graph nodes form a closed union (named node, blank node, literal with an
optional language tag).  A graph is a finite list of triples together with
an oracle for the prefixed-name computation of the underlying namespace
manager (`compute_qname`), which is an external collaborator.  Recursive
traversals that the Python code writes as unbounded loops or recursion are
embedded with an explicit fuel parameter; a returned `none` at the outer
`Option` layer means the Python loop does not terminate (or the call does
not return normally), while `some` carries the value the Python code
returns.
-/

/-- A node of the RDF graph: named node (URIRef), blank node, or literal
with an optional language tag. -/
inductive Node where
  | uri (s : String)
  | bnode (s : String)
  | lit (value : String) (lang : Option String)
deriving DecidableEq, Repr

/-- Python `str()` of a node: the URI text, the blank-node id, or the
literal value. -/
def nodeToStr : Node → String
  | Node.uri s => s
  | Node.bnode s => s
  | Node.lit v _ => v

/-- Python truthiness of a node, used by `if value:` checks: URIRefs,
blank node ids and literals are strings, so they are falsy exactly when
the underlying string is empty. -/
def truthyNode : Node → Bool
  | Node.uri s => s ≠ ""
  | Node.bnode s => s ≠ ""
  | Node.lit v _ => v ≠ ""

/-- Whether a node is a blank node (`isinstance(n, rdflib.BNode)`). -/
def isBNode : Node → Bool
  | Node.bnode _ => true
  | _ => false

/-- Whether a node is a named node (`isinstance(n, rdflib.URIRef)`). -/
def isURIRef : Node → Bool
  | Node.uri _ => true
  | _ => false

/-- An RDF graph: a finite list of triples plus the `compute_qname`
oracle of the namespace manager; `none` models the computation raising. -/
structure Graph where
  triples : List (Node × Node × Node)
  qn : Node → Option (String × String)

/-- Objects of the pattern `(s, p, ?)` in encounter order, as
`graph.objects(s, p)` yields them. -/
def objects (g : Graph) (s p : Node) : List Node :=
  (g.triples.filter (fun t => t.1 = s ∧ t.2.1 = p)).map (fun t => t.2.2)

/-- Subjects of the pattern `(?, p, o)` in encounter order, as
`graph.subjects(p, o)` yields them. -/
def subjects (g : Graph) (p o : Node) : List Node :=
  (g.triples.filter (fun t => t.2.1 = p ∧ t.2.2 = o)).map (fun t => t.1)

/-- Predicate-object pairs of a subject in encounter order, as
`graph.predicate_objects(s)` yields them. -/
def predicateObjects (g : Graph) (s : Node) : List (Node × Node) :=
  (g.triples.filter (fun t => t.1 = s)).map (fun t => (t.2.1, t.2.2))

/-- The first object of `(s, p, ?)` or `none`: `graph.value(s, p)`. -/
def value (g : Graph) (s p : Node) : Option Node :=
  (objects g s p).head?

/-- The first object of `(s, p, ?)` that is also truthy in Python, or
`none`; this models the pervasive pattern `v = graph.value(s, p)`
followed by `if v:`. -/
def truthyValue (g : Graph) (s p : Node) : Option Node :=
  match value g s p with
  | some v => if truthyNode v then some v else none
  | none => none

/-- Namespace URI text of rdflib `RDF`. -/
def rdfNs : String := "http://www.w3.org/1999/02/22-rdf-syntax-ns#"

/-- Namespace URI text of rdflib `RDFS`. -/
def rdfsNs : String := "http://www.w3.org/2000/01/rdf-schema#"

/-- Namespace URI text of rdflib `OWL`. -/
def owlNs : String := "http://www.w3.org/2002/07/owl#"

/-- Namespace URI text of rdflib `DC`. -/
def dcNs : String := "http://purl.org/dc/elements/1.1/"

/-- Namespace URI text of rdflib `DCTERMS`. -/
def dctermsNs : String := "http://purl.org/dc/terms/"

/-- Namespace URI text of rdflib `SKOS`. -/
def skosNs : String := "http://www.w3.org/2004/02/skos/core#"

def rdfTypeN : Node := Node.uri (rdfNs ++ "type")
def rdfFirstN : Node := Node.uri (rdfNs ++ "first")
def rdfRestN : Node := Node.uri (rdfNs ++ "rest")
def rdfNilN : Node := Node.uri (rdfNs ++ "nil")
def rdfsLabelN : Node := Node.uri (rdfsNs ++ "label")
def rdfsCommentN : Node := Node.uri (rdfsNs ++ "comment")
def rdfsSubClassOfN : Node := Node.uri (rdfsNs ++ "subClassOf")
def rdfsSubPropertyOfN : Node := Node.uri (rdfsNs ++ "subPropertyOf")
def rdfsDomainN : Node := Node.uri (rdfsNs ++ "domain")
def rdfsRangeN : Node := Node.uri (rdfsNs ++ "range")
def rdfsClassN : Node := Node.uri (rdfsNs ++ "Class")
def rdfsDatatypeN : Node := Node.uri (rdfsNs ++ "Datatype")
def owlClassN : Node := Node.uri (owlNs ++ "Class")
def owlOntologyN : Node := Node.uri (owlNs ++ "Ontology")
def owlRestrictionN : Node := Node.uri (owlNs ++ "Restriction")
def owlObjectPropertyN : Node := Node.uri (owlNs ++ "ObjectProperty")
def owlDatatypePropertyN : Node := Node.uri (owlNs ++ "DatatypeProperty")
def owlAnnotationPropertyN : Node := Node.uri (owlNs ++ "AnnotationProperty")
def owlNamedIndividualN : Node := Node.uri (owlNs ++ "NamedIndividual")
def owlOnPropertyN : Node := Node.uri (owlNs ++ "onProperty")
def owlOnClassN : Node := Node.uri (owlNs ++ "onClass")
def owlSomeValuesFromN : Node := Node.uri (owlNs ++ "someValuesFrom")
def owlAllValuesFromN : Node := Node.uri (owlNs ++ "allValuesFrom")
def owlHasValueN : Node := Node.uri (owlNs ++ "hasValue")
def owlMinCardinalityN : Node := Node.uri (owlNs ++ "minCardinality")
def owlMaxCardinalityN : Node := Node.uri (owlNs ++ "maxCardinality")
def owlCardinalityN : Node := Node.uri (owlNs ++ "cardinality")
def owlMinQualifiedCardinalityN : Node := Node.uri (owlNs ++ "minQualifiedCardinality")
def owlMaxQualifiedCardinalityN : Node := Node.uri (owlNs ++ "maxQualifiedCardinality")
def owlQualifiedCardinalityN : Node := Node.uri (owlNs ++ "qualifiedCardinality")
def owlUnionOfN : Node := Node.uri (owlNs ++ "unionOf")
def owlIntersectionOfN : Node := Node.uri (owlNs ++ "intersectionOf")
def owlComplementOfN : Node := Node.uri (owlNs ++ "complementOf")
def owlOneOfN : Node := Node.uri (owlNs ++ "oneOf")
def owlSameAsN : Node := Node.uri (owlNs ++ "sameAs")
def owlDisjointWithN : Node := Node.uri (owlNs ++ "disjointWith")
def owlInverseOfN : Node := Node.uri (owlNs ++ "inverseOf")
def owlVersionInfoN : Node := Node.uri (owlNs ++ "versionInfo")
def owlImportsN : Node := Node.uri (owlNs ++ "imports")
def dcTitleN : Node := Node.uri (dcNs ++ "title")
def dcDateN : Node := Node.uri (dcNs ++ "date")
def dcCreatorN : Node := Node.uri (dcNs ++ "creator")
def dcContributorN : Node := Node.uri (dcNs ++ "contributor")
def dcPublisherN : Node := Node.uri (dcNs ++ "publisher")
def dcRightsN : Node := Node.uri (dcNs ++ "rights")
def dcDescriptionN : Node := Node.uri (dcNs ++ "description")
def dctermsTitleN : Node := Node.uri (dctermsNs ++ "title")
def dctermsDateN : Node := Node.uri (dctermsNs ++ "date")
def dctermsCreatorN : Node := Node.uri (dctermsNs ++ "creator")
def dctermsContributorN : Node := Node.uri (dctermsNs ++ "contributor")
def dctermsPublisherN : Node := Node.uri (dctermsNs ++ "publisher")
def dctermsRightsN : Node := Node.uri (dctermsNs ++ "rights")
def dctermsLicenseN : Node := Node.uri (dctermsNs ++ "license")
def dctermsAbstractN : Node := Node.uri (dctermsNs ++ "abstract")
def dctermsDescriptionN : Node := Node.uri (dctermsNs ++ "description")

/-! ### Python string primitives

The Python string methods the extraction engine uses are embedded as
structurally recursive functions over character lists, so that concrete
instances evaluate inside the kernel.  Splitting and replacing walk the
characters left to right exactly as CPython does, with the list length
as an explicit recursion bound. -/

/-- Python `s.startswith(pre)`. -/
def pyStartsWith (pre s : String) : Bool :=
  pre.toList.isPrefixOf s.toList

/-- Python `c in s` for a single character. -/
def pyContainsChar (s : String) (c : Char) : Bool :=
  s.toList.contains c

/-- Substring containment on character lists, Python `sub in s`. -/
def containsSub (sub : List Char) : List Char → Bool
  | [] => sub.isEmpty
  | c :: rest => sub.isPrefixOf (c :: rest) || containsSub sub rest

/-- Python `s.split(sep)` worker for a nonempty separator. -/
def pySplitGo (sep : List Char) : Nat → List Char → List Char → List (List Char)
  | 0, _, acc => [acc.reverse]
  | _+1, [], acc => [acc.reverse]
  | fuel+1, c :: rest, acc =>
    if sep.isPrefixOf (c :: rest) then
      acc.reverse :: pySplitGo sep fuel ((c :: rest).drop sep.length) []
    else
      pySplitGo sep fuel rest (c :: acc)

/-- Python `s.split(sep)` for a nonempty separator. -/
def pySplit (s sep : String) : List String :=
  (pySplitGo sep.toList (s.toList.length + 1) s.toList []).map String.mk

/-- Python `s.replace(old, new)` worker: all non-overlapping occurrences,
left to right. -/
def pyReplaceGo (old new : List Char) : Nat → List Char → List Char
  | 0, l => l
  | _+1, [] => []
  | fuel+1, c :: rest =>
    if old ≠ [] ∧ old.isPrefixOf (c :: rest) then
      new ++ pyReplaceGo old new fuel ((c :: rest).drop old.length)
    else
      c :: pyReplaceGo old new fuel rest

/-- Python `s.replace(old, new)`. -/
def pyReplace (s old new : String) : String :=
  String.mk (pyReplaceGo old.toList new.toList (s.toList.length + 1) s.toList)

/-- Python `s.lower()` (ASCII letters, as the entity labels here use). -/
def pyLower (s : String) : String :=
  String.mk (s.toList.map Char.toLower)

/-- Python `s.rstrip(c)`. -/
def pyRStrip (s : String) (c : Char) : String :=
  String.mk ((s.toList.reverse.dropWhile (fun x => x = c)).reverse)

/-- Python slice `s[:n]` by code points. -/
def pyTake (s : String) (n : Nat) : String :=
  String.mk (s.toList.take n)

/-! ### Literal resolver (`OntologyParser._extract_preferred_and_others`) -/

/-- The literal candidates of a subject across a predicate list, in
encounter order, each reduced to its value and language tag.  This is the
candidate-collection loop of `_extract_preferred_and_others`. -/
def collectCandidates (g : Graph) (subject : Node) (preds : List Node) :
    List (String × Option String) :=
  preds.flatMap (fun p =>
    (objects g subject p).filterMap (fun o =>
      match o with
      | Node.lit v lang => some (v, lang)
      | _ => none))

/-- Formats one alternate: `value` when the language tag is missing or
empty (Python truthiness of `lang`), else `value @lang`. -/
def formatAlternate (c : String × Option String) : String :=
  match c.2 with
  | some l => if l = "" then c.1 else c.1 ++ " @" ++ l
  | none => c.1

/-- The literal resolver `_extract_preferred_and_others`: the preferred
literal value and the formatted alternates. -/
def extractPreferredAndOthers (g : Graph) (subject : Node) (preds : List Node) :
    Option String × List String :=
  let candidates := collectCandidates g subject preds
  match candidates with
  | [] => (none, [])
  | c0 :: rest =>
    match candidates.filter (fun c => c.2 = some "en") with
    | pref :: _ =>
      (some pref.1, (candidates.filter (fun c => c ≠ pref)).map formatAlternate)
    | [] => (some c0.1, rest.map formatAlternate)

/-- The parser helper `_get_literal`: the preferred literal only. -/
def getLiteral (g : Graph) (subject : Node) (preds : List Node) : Option String :=
  (extractPreferredAndOthers g subject preds).1

/-- The parser helper `_get_comment_with_translations`. -/
def getCommentWithTranslations (g : Graph) (node : Node) : Option String :=
  let r := extractPreferredAndOthers g node [rdfsCommentN]
  match r.1 with
  | some best =>
    if best ≠ "" ∧ r.2 ≠ [] then
      some (best ++ "\n\n" ++ String.intercalate "\n" r.2)
    else some best
  | none => none

/-! ### Name resolver (`OntologyParser._get_label_or_qname`) -/

/-- The auto-generated-prefix test `_is_auto_generated`: the regular
expression `^ns\d+$`. -/
def isAutoGenerated (p : String) : Bool :=
  p.toList.take 2 = ['n', 's'] ∧ p.toList.drop 2 ≠ [] ∧
    (p.toList.drop 2).all Char.isDigit

/-- The name resolver `_get_label_or_qname`: preferred label when truthy,
else a prefixed name from `compute_qname` (with auto-generated prefixes
discarded in favour of the raw URI), else the raw URI string. -/
def getLabelOrQname (g : Graph) (subject : Node) : String :=
  match getLiteral g subject [rdfsLabelN] with
  | some l =>
    if l ≠ "" then l else getLabelOrQnameFallback g subject
  | none => getLabelOrQnameFallback g subject
where
  getLabelOrQnameFallback (g : Graph) (subject : Node) : String :=
    match g.qn subject with
    | none => nodeToStr subject
    | some (pfx, nm) =>
      if pfx ≠ "" then
        if isAutoGenerated pfx then nodeToStr subject
        else pfx ++ ":" ++ nm
      else if nm ≠ "" then ":" ++ nm else nodeToStr subject

/-! ### Defined resources and internal anchors -/

/-- The defining types collected in `OntologyParser.__init__`. -/
def definingTypes : List Node :=
  [owlClassN, rdfsClassN, owlObjectPropertyN, owlDatatypePropertyN,
   owlAnnotationPropertyN, owlNamedIndividualN, rdfsDatatypeN]

/-- The locally-defined-resource set of the run: all URIRef subjects
declared with one of the defining types. -/
def definedResources (g : Graph) : List String :=
  definingTypes.flatMap (fun dt =>
    (subjects g rdfTypeN dt).filterMap (fun s =>
      match s with
      | Node.uri u => some u
      | _ => none))

/-- The display-URL computation `_resolve_url`: an internal anchor when
the URI is locally defined, else the URI unchanged. -/
def resolveUrl (defined : List String) (uri : String) : String :=
  if uri ∈ defined then "#" ++ uri else uri

/-- The first `owl:Ontology` subject, as stored by
`OntologyParser._find_ontology_node`. -/
def findOntologyNode (g : Graph) : Option Node :=
  (subjects g rdfTypeN owlOntologyN).head?

/-! ### Typed documentation model (`pylode/model.py`) -/

/-- The `Element` record of `model.py`. -/
structure Element where
  uri : String
  label : Option String := none
  comment : Option String := none
  description : Option String := none
  isDefinedBy : Option String := none
  typeLabel : Option String := none
  url : Option String := none
  otherLabels : List String := []
deriving DecidableEq, Repr

/-- The `Restriction` record of `model.py`: note that it has no field for
a qualifying class. -/
structure PRestriction where
  onProperty : Element
  rtype : String
  amount : Option String := none
  values : List Element := []
  literalValue : Option String := none
deriving DecidableEq, Repr

/-- The `Class` record of `model.py`. -/
structure PClass extends Element where
  superClasses : List Element := []
  subClasses : List Element := []
  inDomainOf : List Element := []
  inRangeOf : List Element := []
  members : List Element := []
  disjointWith : List Element := []
  restrictions : List PRestriction := []
  skosProperties : List (String × String) := []
deriving DecidableEq, Repr

/-- The `Property` record of `model.py`. -/
structure PProperty extends Element where
  superProperties : List Element := []
  subProperties : List Element := []
  domains : List Element := []
  ranges : List Element := []
  inverse : List Element := []
  disjointWithP : List Element := []
deriving DecidableEq, Repr

/-- The `Individual` record of `model.py`.  An assertion tuple is
(property display name, resolved property URL, object display value,
optional resolved object URL). -/
structure PIndividual extends Element where
  types : List Element := []
  sameAs : List String := []
  assertions : List (String × String × String × Option String) := []
deriving DecidableEq, Repr

/-- The `OntologyMetadata` record of `model.py`. -/
structure OntologyMetadata where
  uri : String
  title : Option String := none
  date : Option String := none
  version : Option String := none
  creators : List String := []
  contributors : List String := []
  publishers : List String := []
  imports : List String := []
  license : Option String := none
  abstract : Option String := none
  description : Option String := none
deriving DecidableEq, Repr

/-- The builder `_create_element`. -/
def createElement (g : Graph) (defined : List String) (node : Node)
    (typeLabel : Option String) : Element :=
  let uriStr := nodeToStr node
  { uri := uriStr
    label := some (getLabelOrQname g node)
    typeLabel := typeLabel
    url := some (resolveUrl defined uriStr)
    otherLabels := (extractPreferredAndOthers g node [rdfsLabelN]).2 }

/-! ### Parser class-expression target traversal

The recursion of `_get_elements_from_target`, including the unbounded
`while` loop over the RDF list of an `owl:unionOf` object, is embedded
with an explicit fuel parameter; `none` means the Python call does not
return (the loop runs forever). -/

/-- Label computation for the named-node branch of
`_get_elements_from_target`. -/
def targetUriLabel (g : Graph) (node : Node) : String :=
  match getLiteral g node [rdfsLabelN] with
  | some l =>
    if l ≠ "" then l else targetQnameLabel g node
  | none => targetQnameLabel g node
where
  targetQnameLabel (g : Graph) (node : Node) : String :=
    match g.qn node with
    | none => nodeToStr node
    | some (pfx, nm) => if pfx ≠ "" then pfx ++ ":" ++ nm else nm

mutual

/-- The traversal `_get_elements_from_target`. -/
def getElementsFromTarget (g : Graph) (defined : List String) :
    Nat → Node → Option (List Element)
  | 0, _ => none
  | fuel+1, node =>
    match node with
    | Node.bnode _ =>
      match truthyValue g node owlUnionOfN with
      | some u => unionLoop g defined fuel u
      | none => some [{ uri := nodeToStr node, label := some "Anonymous", typeLabel := some "c" }]
    | _ =>
      some [{ uri := nodeToStr node, label := some (targetUriLabel g node), typeLabel := some "c" }]

/-- The `while current != RDF.nil` loop inside `_get_elements_from_target`. -/
def unionLoop (g : Graph) (defined : List String) :
    Nat → Node → Option (List Element)
  | 0, _ => none
  | fuel+1, cur =>
    if cur = rdfNilN then some []
    else
      let elems? : Option (List Element) :=
        match truthyValue g cur rdfFirstN with
        | some first => getElementsFromTarget g defined fuel first
        | none => some []
      match elems? with
      | none => none
      | some elems =>
        match truthyValue g cur rdfRestN with
        | none => some elems
        | some nxt => (unionLoop g defined fuel nxt).map (fun rest => elems ++ rest)

end

/-- The restriction decoder `_parse_restriction` of the typed parser.
The outer `Option` is fuel divergence of the embedded traversal; the
inner `Option` is the Python `None` result. -/
def parseRestriction (g : Graph) (defined : List String) (fuel : Nat)
    (node : Node) : Option (Option PRestriction) :=
  match truthyValue g node owlOnPropertyN with
  | none => some none
  | some onProp =>
    let propType : String :=
      if g.triples.contains (onProp, rdfTypeN, owlDatatypePropertyN) then "dp"
      else if g.triples.contains (onProp, rdfTypeN, owlAnnotationPropertyN) then "ap"
      else "op"
    let propElement := createElement g defined onProp (some propType)
    match truthyValue g node owlSomeValuesFromN with
    | some sv =>
      (getElementsFromTarget g defined fuel sv).map (fun ts =>
        some { onProperty := propElement, rtype := "some", values := ts })
    | none =>
    match truthyValue g node owlAllValuesFromN with
    | some av =>
      (getElementsFromTarget g defined fuel av).map (fun ts =>
        some { onProperty := propElement, rtype := "only", values := ts })
    | none =>
    match truthyValue g node owlHasValueN with
    | some hv =>
      some (some { onProperty := propElement, rtype := "value",
                   literalValue := some (nodeToStr hv) })
    | none =>
    match (truthyValue g node owlMinCardinalityN).orElse
        (fun _ => truthyValue g node owlMinQualifiedCardinalityN) with
    | some mc =>
      some (some { onProperty := propElement, rtype := "min", amount := some (nodeToStr mc) })
    | none =>
    match (truthyValue g node owlMaxCardinalityN).orElse
        (fun _ => truthyValue g node owlMaxQualifiedCardinalityN) with
    | some mc =>
      some (some { onProperty := propElement, rtype := "max", amount := some (nodeToStr mc) })
    | none =>
    match (truthyValue g node owlCardinalityN).orElse
        (fun _ => truthyValue g node owlQualifiedCardinalityN) with
    | some c =>
      some (some { onProperty := propElement, rtype := "exactly", amount := some (nodeToStr c) })
    | none => some none

/-! ### Processor class-expression decoder
(`OntologyProcessor._process_class_expression` and `_process_list`) -/

/-- A decoded class expression of the map-based processor.  List members
are either plain strings (named nodes and literals) or nested decoded
expressions, mirroring the Python lists of `str` and `dict`. -/
inductive PyExpr where
  | restriction (rtype : String) (prop : String) (val : String) (onClass : Option String)
  | union (members : List (String ⊕ PyExpr))
  | intersection (members : List (String ⊕ PyExpr))
  | complement (cls : String)
  | enumeration (members : List (String ⊕ PyExpr))

/-- The `restriction_types` table of `_process_class_expression`, in
source order. -/
def restrictionTypes : List (Node × String) :=
  [(owlSomeValuesFromN, "some"),
   (owlAllValuesFromN, "all"),
   (owlHasValueN, "value"),
   (owlMinCardinalityN, "min"),
   (owlMaxCardinalityN, "max"),
   (owlCardinalityN, "exactly"),
   (owlMinQualifiedCardinalityN, "min_qualified"),
   (owlMaxQualifiedCardinalityN, "max_qualified"),
   (owlQualifiedCardinalityN, "exactly_qualified")]

/-- The substring test `'qualified' in restriction_type`. -/
def isQualifiedType (rt : String) : Bool :=
  containsSub "qualified".toList rt.toList

/-- The restriction-detection loop at the top of
`_process_class_expression`: the first restriction predicate present on
the node, provided `owl:onProperty` is also present, decides the result. -/
def tryRestriction (g : Graph) (node : Node) : Option PyExpr :=
  restrictionTypes.findSome? fun pr =>
    match objects g node pr.1 with
    | [] => none
    | v :: _ =>
      match objects g node owlOnPropertyN with
      | [] => none
      | p :: _ =>
        some (.restriction pr.2 (nodeToStr p) (nodeToStr v)
          (if isQualifiedType pr.2
           then (objects g node owlOnClassN).head?.map nodeToStr
           else none))

mutual

/-- The decoder `_process_class_expression`.  The outer `Option` is fuel
divergence; the inner `Option` is the Python `None` result for nodes with
no recognizable case. -/
def processClassExpression (g : Graph) : Nat → Node → Option (Option PyExpr)
  | 0, _ => none
  | fuel+1, node =>
    match tryRestriction g node with
    | some r => some (some r)
    | none =>
      match objects g node owlUnionOfN with
      | u :: _ => (processList g fuel (some u)).map (fun ms => some (.union ms))
      | [] =>
      match objects g node owlIntersectionOfN with
      | i :: _ => (processList g fuel (some i)).map (fun ms => some (.intersection ms))
      | [] =>
      match objects g node owlComplementOfN with
      | c :: _ => some (some (.complement (nodeToStr c)))
      | [] =>
      match objects g node owlOneOfN with
      | o :: _ => (processList g fuel (some o)).map (fun ms => some (.enumeration ms))
      | [] => some none

/-- The RDF-list walk `_process_list`: the `while current and current !=
RDF.nil` loop, with `current` as an optional node exactly as in Python. -/
def processList (g : Graph) : Nat → Option Node → Option (List (String ⊕ PyExpr))
  | 0, _ => none
  | _+1, none => some []
  | fuel+1, some cur =>
    if ¬ truthyNode cur ∨ cur = rdfNilN then some []
    else
      let member? : Option (Option (String ⊕ PyExpr)) :=
        match (objects g cur rdfFirstN).head? with
        | none => some none
        | some m =>
          match m with
          | Node.uri s => some (some (Sum.inl s))
          | Node.bnode _ =>
            match processClassExpression g fuel m with
            | none => none
            | some none => some none
            | some (some e) => some (some (Sum.inr e))
          | Node.lit v _ => some (some (Sum.inl v))
      match member? with
      | none => none
      | some mem =>
        (processList g fuel (objects g cur rdfRestN).head?).map
          (fun rest => mem.toList ++ rest)

end

/-! ### Parser entity builders and listing operations -/

/-- The namespace-manager computation `graph.qname`: `prefix:name`, or
just `name` under the default (empty) prefix; `none` models a raised
exception. -/
def qnameStr (g : Graph) (n : Node) : Option String :=
  (g.qn n).map (fun pn => if pn.1 ≠ "" then pn.1 ++ ":" ++ pn.2 else pn.2)

/-- The builder `_create_class`.  The result is `none` when the call does
not return normally: the embedded restriction traversal diverges, or the
`graph.qname` call of the SKOS loop raises. -/
def createClass (g : Graph) (defined : List String) (fuel : Nat) (node : Node) :
    Option PClass := do
  let uriStr := nodeToStr node
  let restBNodes := (objects g node rdfsSubClassOfN).filter
    (fun o => isBNode o ∧ g.triples.contains (o, rdfTypeN, owlRestrictionN))
  let restrictions ← restBNodes.foldlM (fun acc o => do
    let r? ← parseRestriction g defined fuel o
    pure (match r? with
      | some r => acc ++ [r]
      | none => acc)) []
  let skosPairs := (predicateObjects g node).filter
    (fun po => pyStartsWith skosNs (nodeToStr po.1) ∧ ¬ isBNode po.2)
  let skosProperties ← skosPairs.mapM
    (fun po => (qnameStr g po.1).map (fun q => (q, nodeToStr po.2)))
  pure
    { uri := uriStr
      label := some (getLabelOrQname g node)
      comment := getCommentWithTranslations g node
      typeLabel := some "c"
      url := some (resolveUrl defined uriStr)
      otherLabels := (extractPreferredAndOthers g node [rdfsLabelN]).2
      superClasses := ((objects g node rdfsSubClassOfN).filter (fun o => ¬ isBNode o)).map
        (fun o => createElement g defined o (some "c"))
      subClasses := ((subjects g rdfsSubClassOfN node).filter (fun s => ¬ isBNode s)).map
        (fun s => createElement g defined s (some "c"))
      inDomainOf := ((subjects g rdfsDomainN node).filter (fun s => ¬ isBNode s)).map
        (fun s => createElement g defined s (some "op"))
      inRangeOf := ((subjects g rdfsRangeN node).filter (fun s => ¬ isBNode s)).map
        (fun s => createElement g defined s (some "op"))
      members := ((subjects g rdfTypeN node).filter
        (fun s => ¬ isBNode s ∧ ¬ g.triples.contains (s, rdfTypeN, owlClassN))).map
        (fun s => createElement g defined s (some "ni"))
      disjointWith := ((objects g node owlDisjointWithN).filter (fun o => ¬ isBNode o)).map
        (fun o => createElement g defined o (some "c"))
      restrictions := restrictions
      skosProperties := skosProperties }

/-- The builder `_create_property`; `typeLabel` is the long name the
Python signature receives and ignores, `shortType` the stored tag. -/
def createProperty (g : Graph) (defined : List String)
    (typeLabel shortType : String) (node : Node) : PProperty :=
  let _ := typeLabel
  let uriStr := nodeToStr node
  { uri := uriStr
    label := some (getLabelOrQname g node)
    comment := getCommentWithTranslations g node
    typeLabel := some shortType
    url := some (resolveUrl defined uriStr)
    otherLabels := (extractPreferredAndOthers g node [rdfsLabelN]).2
    superProperties := ((objects g node rdfsSubPropertyOfN).filter (fun o => ¬ isBNode o)).map
      (fun o => createElement g defined o (some shortType))
    subProperties := ((subjects g rdfsSubPropertyOfN node).filter (fun s => ¬ isBNode s)).map
      (fun s => createElement g defined s (some shortType))
    domains := ((objects g node rdfsDomainN).filter (fun o => ¬ isBNode o)).map
      (fun o => createElement g defined o (some "c"))
    ranges := ((objects g node rdfsRangeN).filter (fun o => ¬ isBNode o)).map
      (fun o => createElement g defined o (some "c"))
    inverse := ((objects g node owlInverseOfN).filter (fun o => ¬ isBNode o)).map
      (fun o => createElement g defined o (some shortType)) }

/-- The reserved structural namespaces excluded from generic individual
assertions in `get_named_individuals`. -/
def excludeNamespaces : List String := [rdfNs, rdfsNs, dcNs, dctermsNs]

/-- The predicate display name computed for one assertion of
`get_named_individuals`. -/
def assertionPropQname (g : Graph) (p : Node) : String :=
  match g.qn p with
  | some (pfx, nm) =>
    if pfx ≠ "" ∧ ¬ isAutoGenerated pfx then pfx ++ ":" ++ nm
    else if nm ≠ "" then nm else nodeToStr p
  | none => nodeToStr p

/-- The object display label and optional resolved URL computed for one
assertion of `get_named_individuals`. -/
def assertionObject (g : Graph) (defined : List String) (o : Node) :
    String × Option String :=
  match o with
  | Node.uri s =>
    (match g.qn o with
     | some (op, onm) =>
       if op ≠ "" ∧ ¬ isAutoGenerated op then op ++ ":" ++ onm else s
     | none => s,
     some (resolveUrl defined s))
  | _ => (nodeToStr o, none)

/-- One assertion tuple of `get_named_individuals`. -/
def mkAssertion (g : Graph) (defined : List String) (p o : Node) :
    String × String × String × Option String :=
  let obj := assertionObject g defined o
  (assertionPropQname g p, resolveUrl defined (nodeToStr p), obj.1, obj.2)

/-- The exclusion test applied to a candidate assertion pair of
`get_named_individuals`: blank-node objects, `owl:sameAs`, and predicates
in the reserved structural namespaces are skipped. -/
def assertionKept (p o : Node) : Bool :=
  ¬ isBNode o ∧ p ≠ owlSameAsN ∧
    ¬ excludeNamespaces.any (fun ns => pyStartsWith ns (nodeToStr p))

/-- The per-individual builder inside `get_named_individuals`. -/
def createIndividual (g : Graph) (defined : List String) (s : Node) : PIndividual :=
  let uriStr := nodeToStr s
  { uri := uriStr
    label := some (getLabelOrQname g s)
    comment := getCommentWithTranslations g s
    typeLabel := some "ni"
    url := some (resolveUrl defined uriStr)
    otherLabels := (extractPreferredAndOthers g s [rdfsLabelN]).2
    types := ((objects g s rdfTypeN).filter
      (fun o => o ≠ owlNamedIndividualN ∧ ¬ isBNode o)).map
      (fun o => createElement g defined o (some "c"))
    sameAs := (objects g s owlSameAsN).map nodeToStr
    assertions := (predicateObjects g s).filterMap (fun po =>
      if assertionKept po.1 po.2 then some (mkAssertion g defined po.1 po.2) else none) }

/-- The sort key `x.label or x.uri` used by every listing operation. -/
def sortKeyE (e : Element) : String :=
  match e.label with
  | some l => if l = "" then e.uri else l
  | none => e.uri

/-- The listing operation `get_classes`. -/
def getClasses (g : Graph) (defined : List String) (fuel : Nat) :
    Option (List PClass) :=
  (((subjects g rdfTypeN owlClassN).filter (fun s => ¬ isBNode s)).mapM
    (createClass g defined fuel)).map
    (fun cs => cs.mergeSort (fun a b => decide (sortKeyE a.toElement ≤ sortKeyE b.toElement)))

/-- The listing operation `get_object_properties`. -/
def getObjectProperties (g : Graph) (defined : List String) : List PProperty :=
  (((subjects g rdfTypeN owlObjectPropertyN).filter (fun s => ¬ isBNode s)).map
    (createProperty g defined "ObjectProperty" "op")).mergeSort
    (fun a b => decide (sortKeyE a.toElement ≤ sortKeyE b.toElement))

/-- The listing operation `get_datatype_properties`. -/
def getDatatypeProperties (g : Graph) (defined : List String) : List PProperty :=
  (((subjects g rdfTypeN owlDatatypePropertyN).filter (fun s => ¬ isBNode s)).map
    (createProperty g defined "DatatypeProperty" "dp")).mergeSort
    (fun a b => decide (sortKeyE a.toElement ≤ sortKeyE b.toElement))

/-- The listing operation `get_annotation_properties`. -/
def getAnnotationProperties (g : Graph) (defined : List String) : List PProperty :=
  (((subjects g rdfTypeN owlAnnotationPropertyN).filter (fun s => ¬ isBNode s)).map
    (createProperty g defined "AnnotationProperty" "ap")).mergeSort
    (fun a b => decide (sortKeyE a.toElement ≤ sortKeyE b.toElement))

/-- The listing operation `get_properties`: the three property kinds
concatenated and re-sorted. -/
def getProperties (g : Graph) (defined : List String) : List PProperty :=
  (getObjectProperties g defined ++ getDatatypeProperties g defined ++
    getAnnotationProperties g defined).mergeSort
    (fun a b => decide (sortKeyE a.toElement ≤ sortKeyE b.toElement))

/-- The listing operation `get_named_individuals`. -/
def getNamedIndividuals (g : Graph) (defined : List String) : List PIndividual :=
  (((subjects g rdfTypeN owlNamedIndividualN).filter (fun s => ¬ isBNode s)).map
    (createIndividual g defined)).mergeSort
    (fun a b => decide (sortKeyE a.toElement ≤ sortKeyE b.toElement))

/-! ### Metadata extraction -/

/-- The parser helper `_get_list`. -/
def getList (g : Graph) (s : Node) (preds : List Node) : List String :=
  preds.flatMap (fun p => (objects g s p).map (getLabelOrQname g))

/-- The parser operation `get_metadata`: a sentinel record with uri
`unknown` when no ontology-declaration node exists. -/
def getMetadata (g : Graph) : OntologyMetadata :=
  match findOntologyNode g with
  | none => { uri := "unknown" }
  | some onto =>
    { uri := nodeToStr onto
      title := getLiteral g onto [dcTitleN, dctermsTitleN, rdfsLabelN]
      date := getLiteral g onto [dcDateN, dctermsDateN]
      version := getLiteral g onto [owlVersionInfoN]
      creators := getList g onto [dcCreatorN, dctermsCreatorN]
      contributors := getList g onto [dcContributorN, dctermsContributorN]
      publishers := getList g onto [dcPublisherN, dctermsPublisherN]
      imports := getList g onto [owlImportsN]
      license := getLiteral g onto [dcRightsN, dctermsRightsN, dctermsLicenseN]
      abstract := getLiteral g onto [dctermsAbstractN, rdfsCommentN]
      description := getLiteral g onto [dcDescriptionN, dctermsDescriptionN] }

def owlVersionIRIN : Node := Node.uri (owlNs ++ "versionIRI")
def owlPriorVersionN : Node := Node.uri (owlNs ++ "priorVersion")

/-- A metadata value of the map-based processor: a list of strings for
most properties, a single string for the version IRI. -/
inductive MetaVal where
  | strs (l : List String)
  | str1 (s : String)
deriving DecidableEq, Repr

/-- The basic metadata property table of `get_ontology_metadata`, in
source order. -/
def metadataProps : List (String × Node) :=
  [("title", dcTitleN), ("description", dcDescriptionN), ("creator", dcCreatorN),
   ("date", dcDateN), ("version", owlVersionInfoN), ("comment", rdfsCommentN),
   ("label", rdfsLabelN)]

/-- The processor operation `get_ontology_metadata`, keyed dictionary
modelled as an insertion-ordered association list.  With no ontology URI
(`if not self.ontology_uri`) the result is the empty dictionary. -/
def getOntologyMetadata (g : Graph) (ontologyUri : Option String) :
    List (String × MetaVal) :=
  match ontologyUri with
  | none => []
  | some ouri =>
    if ouri = "" then []
    else
      let ontoRef := Node.uri ouri
      (metadataProps.filterMap (fun pr =>
        match objects g ontoRef pr.2 with
        | [] => none
        | vs => some (pr.1, MetaVal.strs (vs.map nodeToStr)))) ++
      (match objects g ontoRef owlVersionIRIN with
       | [] => []
       | v :: _ => [("version_iri", MetaVal.str1 (nodeToStr v))]) ++
      (match objects g ontoRef owlPriorVersionN with
       | [] => []
       | vs => [("prior_version", MetaVal.strs (vs.map nodeToStr))]) ++
      (match objects g ontoRef owlImportsN with
       | [] => []
       | vs => [("imports", MetaVal.strs (vs.map nodeToStr))])

/-! ### Uniqueness resolver (`html_generator.py`) -/

/-- The entity data consumed by `_get_entity_label`: the URI and the
language-keyed label dictionary, as built by `_extract_entity_info`. -/
structure EntityData where
  uri : String
  labels : List (String × List String)
deriving DecidableEq, Repr

/-- The helper `_uri_to_label`: the fragment after the last hash, else
the last slash segment, else the URI itself. -/
def uriToLabel (uri : String) : String :=
  if pyContainsChar uri '#' then (pySplit uri "#").getLastD uri
  else if pyContainsChar uri '/' then (pySplit uri "/").getLastD uri
  else uri

/-- The helper `_get_entity_label`: requested language, then English,
then any available language, then the URI fragment. -/
def getEntityLabel (ed : EntityData) (lang : String) : String :=
  match ed.labels.lookup lang with
  | some (l :: _) => l
  | _ =>
    match ed.labels.lookup "en" with
    | some (l :: _) => l
    | _ =>
      match ed.labels.findSome? (fun kv => kv.2.head?) with
      | some l => l
      | none => uriToLabel ed.uri

/-- The helper `_get_prefix_for_uri`: the first registered prefix whose
namespace the URI starts with. -/
def getPrefixForUri (uri : String) (namespaces : List (String × String)) :
    Option String :=
  (namespaces.find? (fun kv => pyStartsWith kv.2 uri)).map (fun kv => kv.1)

/-- The helper `_extract_namespace_prefix`: a pseudo-prefix derived from
the URI text itself. -/
def extractNamespacePfx (uri : String) : Option String :=
  let ns? : Option String :=
    if pyContainsChar uri '#' then some ((pySplit uri "#").headD "")
    else if pyContainsChar uri '/' then
      match (pySplit (pyRStrip uri '/') "/").reverse with
      | _ :: second :: _ => some second
      | _ => none
    else none
  match ns? with
  | none => none
  | some ns =>
    if ns = "" then none
    else
      let cleaned := pyReplace (pyReplace (pyReplace ns "http://" "") "https://" "") "www." ""
      let parts := pySplit cleaned "."
      if parts.length > 1 then some (pyTake (parts.headD "") 8)
      else some (pyTake cleaned 8)

/-- The per-member label assignment of the collision branch inside
`_generate_unique_labels`: a registered prefix other than the empty
prefix and the literal prefix base when one matches, else the derived
pseudo-prefix — where, matching the Python truthiness test
`if namespace_prefix:`, an empty derived prefix counts as underivable
and the original label is kept. -/
def collisionLabel (namespaces : List (String × String)) (uri lbl : String) : String :=
  let fromPseudo : String :=
    match extractNamespacePfx uri with
    | some np => if np ≠ "" then np ++ ":" ++ lbl else lbl
    | none => lbl
  match getPrefixForUri uri namespaces with
  | some pfx =>
    if pfx ≠ "" ∧ pfx ≠ "base" then pfx ++ ":" ++ lbl else fromPseudo
  | none => fromPseudo

/-- The case-insensitive grouping key of `_generate_unique_labels`. -/
def displayNameOf (e : String × EntityData) : String :=
  pyLower (getEntityLabel e.2 "en")

/-- The grouping dictionary `name_groups`: entities grouped by
case-insensitive display name, each group in encounter order. -/
def nameGroups (entities : List (String × EntityData)) :
    List (String × List (String × EntityData)) :=
  ((entities.map displayNameOf).dedup).map (fun dn =>
    (dn, entities.filter (fun e => displayNameOf e = dn)))

/-- The uniqueness resolver `_generate_unique_labels`: a URI-keyed
mapping (association list) from entity URI to disambiguated display
label. -/
def generateUniqueLabels (entities : List (String × EntityData))
    (namespaces : List (String × String)) : List (String × String) :=
  (nameGroups entities).flatMap (fun grp =>
    if grp.2.length > 1 then
      grp.2.map (fun e => (e.1, collisionLabel namespaces e.1 (getEntityLabel e.2 "en")))
    else
      grp.2.map (fun e => (e.1, getEntityLabel e.2 "en")))

/-! ### Concrete instances used by the witnesses and counterexamples -/

def emptyG0 : Graph := { triples := [], qn := fun _ => none }

def cyclicListGraph : Graph :=
  { triples := [(Node.bnode "b0", rdfFirstN, Node.uri "http://example.org/A"),
                (Node.bnode "b0", rdfRestN, Node.bnode "b0")],
    qn := fun _ => none }

def cyclicUnionGraph : Graph :=
  { triples := [(Node.bnode "b", owlUnionOfN, Node.bnode "l0"),
                (Node.bnode "l0", rdfFirstN, Node.uri "http://example.org/A"),
                (Node.bnode "l0", rdfRestN, Node.bnode "l0")],
    qn := fun _ => none }

/-- Follows the spec words for the literal resolver, as amended: the
first en-tagged candidate, when one exists, is preferred and every
candidate not literal-equal to it becomes an alternate in encounter
order; otherwise the first candidate is preferred and the remaining
candidates are the alternates; alternates are formatted bare when
untagged and as value-at-lang when language-tagged. -/
def specResolvePreferred (cands : List (String × Option String)) :
    Option String × List String :=
  match cands with
  | [] => (none, [])
  | c0 :: rest =>
    match cands.find? (fun c => c.2 = some "en") with
    | some pref => (some pref.1, (cands.filter (fun c => c ≠ pref)).map formatAlternate)
    | none => (some c0.1, rest.map formatAlternate)

def dupLitGraph : Graph :=
  { triples := [(Node.uri "http://ex.org/s", Node.uri "http://ex.org/p1",
                 Node.lit "Person" (some "en")),
                (Node.uri "http://ex.org/s", Node.uri "http://ex.org/p2",
                 Node.lit "Person" (some "en"))],
    qn := fun _ => none }

def qualGraph : Graph :=
  { triples := [(Node.bnode "r", owlOnPropertyN, Node.uri "http://ex.org/P"),
                (Node.bnode "r", owlMinQualifiedCardinalityN, Node.lit "2" none),
                (Node.bnode "r", owlOnClassN, Node.uri "http://ex.org/C")],
    qn := fun _ => none }

def prefixedGraph : Graph :=
  { triples := [],
    qn := fun n => if n = Node.uri "http://ex.org/Person" then some ("ex", "Person")
                   else none }

def autoPrefixedGraph : Graph :=
  { triples := [],
    qn := fun n => if n = Node.uri "http://ex.org/Person" then some ("ns3", "Person")
                   else none }

def emptyLabelGraph : Graph :=
  { triples := [(Node.uri "http://ex.org/Person", rdfsLabelN, Node.lit "" none)],
    qn := fun n => if n = Node.uri "http://ex.org/Person" then some ("ex", "Person")
                   else none }

def multiCaseGraph : Graph :=
  { triples := [(Node.bnode "x", owlOnPropertyN, Node.uri "http://ex.org/P"),
                (Node.bnode "x", owlSomeValuesFromN, Node.uri "http://ex.org/A"),
                (Node.bnode "x", owlUnionOfN, Node.bnode "l")],
    qn := fun _ => none }

def collisionEntities : List (String × EntityData) :=
  [("http://ex.org/Name", { uri := "http://ex.org/Name", labels := [("en", ["Name"])] }),
   ("http://other.net/vocab/Name",
    { uri := "http://other.net/vocab/Name", labels := [("en", ["name"])] }),
   ("http://ex.org/Other", { uri := "http://ex.org/Other", labels := [("en", ["Other"])] }),
   ("http://#Name", { uri := "http://#Name", labels := [("en", ["Name"])] })]

def collisionNamespaces : List (String × String) := [("ex", "http://ex.org/")]

def baseEntities : List (String × EntityData) :=
  [("http://ex.org/Name", { uri := "http://ex.org/Name", labels := [("en", ["Name"])] }),
   ("http://other.net/x/Name",
    { uri := "http://other.net/x/Name", labels := [("en", ["Name"])] })]

def baseNamespaces : List (String × String) := [("base", "http://ex.org/")]

def individualGraph : Graph :=
  { triples := [(Node.uri "http://ex.org/i", rdfTypeN, owlNamedIndividualN),
                (Node.uri "http://ex.org/i", rdfsLabelN, Node.lit "Item" (some "en")),
                (Node.uri "http://ex.org/i",
                 Node.uri "http://xmlns.com/foaf/0.1/knows", Node.uri "http://ex.org/j"),
                (Node.uri "http://ex.org/i", owlSameAsN, Node.uri "http://ex.org/k")],
    qn := fun _ => none }

def oneClassGraph : Graph :=
  { triples := [(Node.uri "http://e/A", rdfTypeN, owlClassN)], qn := fun _ => none }

def oneClassRecord : PClass :=
  { uri := "http://e/A", label := some "http://e/A", typeLabel := some "c",
    url := some "http://e/A" }

/-! ### Theorems -/

theorem find?_eq_head?_filter {α : Type} (p : α → Bool) :
    ∀ l : List α, l.find? p = (l.filter p).head? := by
  intro l
  induction l with
  | nil => rfl
  | cons a t ih =>
    by_cases h : p a
    rw [List.find?_cons_of_pos _ h, List.filter_cons_of_pos h, List.head?_cons]
    rw [List.find?_cons_of_neg _ h, List.filter_cons_of_neg h, ih]

theorem unionLoop_cyclic (defined : List String) :
    ∀ fuel, unionLoop cyclicUnionGraph defined fuel (Node.bnode "l0") = none := by
  intro fuel
  induction fuel with
  | zero => rfl
  | succ f ih =>
    match f, ih with
    | 0, _ => rfl
    | k+1, ih =>
      have step : unionLoop cyclicUnionGraph defined (k+1+1) (Node.bnode "l0") =
          (unionLoop cyclicUnionGraph defined (k+1) (Node.bnode "l0")).map
            (fun rest =>
              [{ uri := "http://example.org/A", label := some "http://example.org/A",
                 typeLabel := some "c" : Element }] ++ rest) := rfl
      rw [step, ih]
      rfl

/-- C1: on a graph whose RDF-list encoding is cyclic, both embedded list
traversals (the processor loop `_process_list` and the parser loop inside
`_get_elements_from_target`) never reach a terminating state: for every
fuel bound the embedding reports divergence.  The code has no visited-set
or node-count bound, so the Python loops run forever on this input. -/
theorem C1_cyclic_list_traversal_diverges :
    (∀ fuel, processList cyclicListGraph fuel (some (Node.bnode "b0")) = none) ∧
    (∀ (defined : List String) (fuel : Nat),
      getElementsFromTarget cyclicUnionGraph defined fuel (Node.bnode "b") = none) := by
  constructor
  · intro fuel
    induction fuel with
    | zero => rfl
    | succ f ih =>
      have step : processList cyclicListGraph (f+1) (some (Node.bnode "b0")) =
          (processList cyclicListGraph f (some (Node.bnode "b0"))).map
            (fun rest => [Sum.inl "http://example.org/A"] ++ rest) := rfl
      rw [step, ih]
      rfl
  · intro defined fuel
    match fuel with
    | 0 => rfl
    | f+1 =>
      have step : getElementsFromTarget cyclicUnionGraph defined (f+1) (Node.bnode "b") =
          unionLoop cyclicUnionGraph defined f (Node.bnode "l0") := rfl
      rw [step, unionLoop_cyclic]

/-- C6: the display URL is the URI prefixed with a hash exactly when the
URI belongs to the locally-defined-resource set of the run, and is the
URI unchanged otherwise; it is a pure function of the URI and that set,
and the url field built into every element record is exactly this
function. -/
theorem C6_displayUrl_anchor_iff (g : Graph) (uri : String) :
    resolveUrl (definedResources g) uri =
      (if uri ∈ definedResources g then "#" ++ uri else uri) ∧
    (resolveUrl (definedResources g) uri = "#" ++ uri ↔ uri ∈ definedResources g) ∧
    (createElement g (definedResources g) (Node.uri uri) none).url =
      some (resolveUrl (definedResources g) uri) := by
  refine ⟨rfl, ⟨fun h => ?_, fun h => ?_⟩, rfl⟩
  · by_contra hmem
    rw [resolveUrl, if_neg hmem] at h
    have hlen := congrArg String.length h
    rw [String.length_append] at hlen
    have hone : ("#" : String).length = 1 := rfl
    omega
  · rw [resolveUrl, if_pos h]

/-- C2 (amended): the literal resolver agrees everywhere with the
spec-side resolver on the collected candidate list; in particular the
first en-tagged literal is preferred when one exists and otherwise the
first candidate is, with the stated alternate formatting — except that
candidates literal-equal to the preferred one are dropped from the
alternates rather than kept. -/
theorem C2_literal_resolver_refines (g : Graph) (subject : Node) (preds : List Node) :
    extractPreferredAndOthers g subject preds =
      specResolvePreferred (collectCandidates g subject preds) := by
  unfold extractPreferredAndOthers specResolvePreferred
  cases hc : collectCandidates g subject preds with
  | nil => rfl
  | cons c0 rest =>
    rw [find?_eq_head?_filter]
    cases hf : (c0 :: rest).filter (fun c => decide (c.2 = some "en")) with
    | nil => simp only [hf, List.head?_nil]
    | cons pref t => simp only [hf, List.head?_cons]

/-- C2 counterexample: with the same en-tagged literal reachable through
two predicates of the predicate set, the resolver drops the duplicate
en-tagged candidate from the alternates entirely, while the claim
requires every other candidate, duplicates included, to appear as an
alternate. -/
theorem C2_literal_resolver_cex :
    extractPreferredAndOthers dupLitGraph (Node.uri "http://ex.org/s")
      [Node.uri "http://ex.org/p1", Node.uri "http://ex.org/p2"] =
      (some "Person", []) ∧
    ([] : List String) ≠ ["Person @en"] := ⟨rfl, by decide⟩

/-- C8 (amended): when the graph has no ontology-declaration node the
typed parser returns the sentinel metadata record with uri unknown, and
the map-based processor (whose stored ontology URI is then absent)
returns the empty metadata dictionary; neither raises. -/
theorem C8_missing_ontology_metadata (g g' : Graph)
    (h : findOntologyNode g = none) :
    getMetadata g = { uri := "unknown" } ∧ getOntologyMetadata g' none = [] := by
  refine ⟨?_, rfl⟩
  unfold getMetadata
  rw [h]

/-- C8 witness: both conclusions instantiated on the empty graph. -/
theorem C8_missing_ontology_metadata_witness :
    getMetadata emptyG0 = { uri := "unknown" } ∧
    getOntologyMetadata emptyG0 none = [] :=
  C8_missing_ontology_metadata emptyG0 emptyG0 rfl

/-- C8 counterexample: the processor implementation returns an empty
dictionary when the ontology URI is absent — there is no entry at all,
in particular none keyed by the sentinel unknown identifier. -/
theorem C8_missing_ontology_metadata_cex :
    getOntologyMetadata emptyG0 none = ([] : List (String × MetaVal)) ∧
    (getOntologyMetadata emptyG0 none).lookup "unknown" = none := ⟨rfl, rfl⟩

/-- Unfolding equation of the processor decoder at positive fuel. -/
theorem processClassExpression_succ (g : Graph) (f : Nat) (node : Node) :
    processClassExpression g (f+1) node =
      (match tryRestriction g node with
       | some r => some (some r)
       | none =>
         match objects g node owlUnionOfN with
         | u :: _ => (processList g f (some u)).map (fun ms => some (.union ms))
         | [] =>
         match objects g node owlIntersectionOfN with
         | i :: _ => (processList g f (some i)).map (fun ms => some (.intersection ms))
         | [] =>
         match objects g node owlComplementOfN with
         | c :: _ => some (some (.complement (nodeToStr c)))
         | [] =>
         match objects g node owlOneOfN with
         | o :: _ => (processList g f (some o)).map (fun ms => some (.enumeration ms))
         | [] => some none) := rfl

/-- C3 (amended): in the map-based processor a restriction node that
carries a qualified-cardinality predicate together with owl onProperty,
and no earlier restriction predicate of the dispatch table, decodes to a
restriction recording the property, the amount and the qualifying class
taken from owl onClass.  The typed parser does not record the qualifying
class (see the counterexample). -/
theorem C3_qualified_cardinality_onClass (g : Graph) (fuel : Nat) (node p c : Node)
    (ps cs : List Node)
    (hsome : objects g node owlSomeValuesFromN = [])
    (hall : objects g node owlAllValuesFromN = [])
    (hval : objects g node owlHasValueN = [])
    (hmin : objects g node owlMinCardinalityN = [])
    (hmax : objects g node owlMaxCardinalityN = [])
    (hcard : objects g node owlCardinalityN = [])
    (hprop : objects g node owlOnPropertyN = p :: ps)
    (hcls : objects g node owlOnClassN = c :: cs) :
    (∀ v vs, objects g node owlMinQualifiedCardinalityN = v :: vs →
      processClassExpression g (fuel+1) node =
        some (some (PyExpr.restriction "min_qualified" (nodeToStr p) (nodeToStr v)
          (some (nodeToStr c))))) ∧
    (∀ v vs, objects g node owlMinQualifiedCardinalityN = [] →
      objects g node owlMaxQualifiedCardinalityN = v :: vs →
      processClassExpression g (fuel+1) node =
        some (some (PyExpr.restriction "max_qualified" (nodeToStr p) (nodeToStr v)
          (some (nodeToStr c))))) ∧
    (∀ v vs, objects g node owlMinQualifiedCardinalityN = [] →
      objects g node owlMaxQualifiedCardinalityN = [] →
      objects g node owlQualifiedCardinalityN = v :: vs →
      processClassExpression g (fuel+1) node =
        some (some (PyExpr.restriction "exactly_qualified" (nodeToStr p) (nodeToStr v)
          (some (nodeToStr c))))) := by
  have hq1 : isQualifiedType "min_qualified" = true := rfl
  have hq2 : isQualifiedType "max_qualified" = true := rfl
  have hq3 : isQualifiedType "exactly_qualified" = true := rfl
  refine ⟨fun v vs hq => ?_, fun v vs hz1 hq => ?_, fun v vs hz1 hz2 hq => ?_⟩
  · rw [processClassExpression_succ]
    simp only [tryRestriction, restrictionTypes, List.findSome?_cons, hsome, hall, hval,
      hmin, hmax, hcard, hprop, hcls, hq, hq1, List.head?_cons, Option.map_some', if_true]
  · rw [processClassExpression_succ]
    simp only [tryRestriction, restrictionTypes, List.findSome?_cons, hsome, hall, hval,
      hmin, hmax, hcard, hprop, hcls, hz1, hq, hq2, List.head?_cons, Option.map_some', if_true]
  · rw [processClassExpression_succ]
    simp only [tryRestriction, restrictionTypes, List.findSome?_cons, hsome, hall, hval,
      hmin, hmax, hcard, hprop, hcls, hz1, hz2, hq, hq3, List.head?_cons, Option.map_some', if_true]

/-- C3 witness: a concrete qualified-cardinality restriction node decoded
by the processor, with the qualifying class recorded. -/
theorem C3_qualified_cardinality_onClass_witness :
    processClassExpression qualGraph 5 (Node.bnode "r") =
      some (some (PyExpr.restriction "min_qualified" "http://ex.org/P" "2"
        (some "http://ex.org/C"))) :=
  (C3_qualified_cardinality_onClass qualGraph 4 (Node.bnode "r")
    (Node.uri "http://ex.org/P") (Node.uri "http://ex.org/C") [] []
    rfl rfl rfl rfl rfl rfl rfl rfl).1 (Node.lit "2" none) [] rfl

/-- C3 counterexample: the typed parser decodes the same
qualified-cardinality restriction node to a plain min-kind restriction
holding only the property and the amount; the resulting record has no
field mentioning the qualifying class, and the qualified kind collapses
to the plain kind. -/
theorem C3_qualified_cardinality_onClass_cex :
    parseRestriction qualGraph [] 5 (Node.bnode "r") =
      some (some
        { onProperty := { uri := "http://ex.org/P", label := some "http://ex.org/P",
                          typeLabel := some "op", url := some "http://ex.org/P" }
          rtype := "min"
          amount := some "2" }) ∧
    ("min" : String) ≠ "min_qualified" := ⟨rfl, by decide⟩

/-- C4 (amended): the name resolver is total by construction and resolves
in order: a nonempty resolved preferred label; else a prefixed name,
except that an auto-generated prefix (lowercase ns followed only by
digits) resolves to the raw URI; a real prefix yields prefix:localName,
the default empty prefix yields :localName; and when no prefixed name can
be computed the raw URI string is returned. -/
theorem C4_name_resolver_order (g : Graph) (s : Node) :
    (∀ l, getLiteral g s [rdfsLabelN] = some l → l ≠ "" → getLabelOrQname g s = l) ∧
    ((getLiteral g s [rdfsLabelN] = none ∨ getLiteral g s [rdfsLabelN] = some "") →
      ((g.qn s = none → getLabelOrQname g s = nodeToStr s) ∧
       (∀ pfx nm, g.qn s = some (pfx, nm) →
         (pfx ≠ "" → isAutoGenerated pfx = true → getLabelOrQname g s = nodeToStr s) ∧
         (pfx ≠ "" → isAutoGenerated pfx = false → getLabelOrQname g s = pfx ++ ":" ++ nm) ∧
         (pfx = "" → nm ≠ "" → getLabelOrQname g s = ":" ++ nm)))) := by
  constructor
  · intro l hl hne
    unfold getLabelOrQname
    rw [hl]
    simp [hne]
  · intro hl
    have hfall : getLabelOrQname g s = getLabelOrQname.getLabelOrQnameFallback g s := by
      unfold getLabelOrQname
      rcases hl with h | h
      · rw [h]
      · rw [h]
        simp
    constructor
    · intro hqn
      rw [hfall]
      unfold getLabelOrQname.getLabelOrQnameFallback
      rw [hqn]
    · intro pfx nm hqn
      refine ⟨fun hp ha => ?_, fun hp ha => ?_, fun hp hn => ?_⟩
      · rw [hfall]
        unfold getLabelOrQname.getLabelOrQnameFallback
        rw [hqn]
        simp [hp, ha]
      · rw [hfall]
        unfold getLabelOrQname.getLabelOrQnameFallback
        rw [hqn]
        simp [hp, ha]
      · rw [hfall]
        unfold getLabelOrQname.getLabelOrQnameFallback
        rw [hqn]
        simp [hp, hn]

/-- C4 witness: a node bound to the real prefix ex with local name Person
and no label resolves to ex:Person; the same node bound only to the
auto-generated prefix ns3 resolves to its raw URI. -/
theorem C4_name_resolver_order_witness :
    getLabelOrQname prefixedGraph (Node.uri "http://ex.org/Person") = "ex:Person" ∧
    getLabelOrQname autoPrefixedGraph (Node.uri "http://ex.org/Person") =
      "http://ex.org/Person" := by
  constructor
  · exact (((C4_name_resolver_order prefixedGraph (Node.uri "http://ex.org/Person")).2
      (Or.inl rfl)).2 "ex" "Person" rfl).2.1 (by decide) (by decide)
  · exact (((C4_name_resolver_order autoPrefixedGraph (Node.uri "http://ex.org/Person")).2
      (Or.inl rfl)).2 "ns3" "Person" rfl).1 (by decide) (by decide)

/-- C4 counterexample: a resolved preferred label is present (the empty
literal) yet the resolver does not return it — Python truthiness makes
the empty label fall through to the prefixed name. -/
theorem C4_name_resolver_order_cex :
    getLiteral emptyLabelGraph (Node.uri "http://ex.org/Person") [rdfsLabelN] = some "" ∧
    getLabelOrQname emptyLabelGraph (Node.uri "http://ex.org/Person") = "ex:Person" ∧
    ("ex:Person" : String) ≠ "" := ⟨rfl, rfl, by decide⟩

/-- C7: decoding an anonymous node is deterministic in the fixed order —
cardinality and value restrictions (requiring onProperty plus a
restriction predicate) first, then unionOf, intersectionOf, complementOf,
then oneOf — and the decoder returns the Python None exactly when no
recognizable class-expression case is present on the node. -/
theorem C7_decode_first_match (g : Graph) (f : Nat) (node : Node) :
    (tryRestriction g node = none ↔
      (objects g node owlOnPropertyN = [] ∨
        ∀ pr ∈ restrictionTypes, objects g node pr.1 = [])) ∧
    (processClassExpression g (f+1) node = some none ↔
      (tryRestriction g node = none ∧ objects g node owlUnionOfN = [] ∧
       objects g node owlIntersectionOfN = [] ∧
       objects g node owlComplementOfN = [] ∧ objects g node owlOneOfN = [])) ∧
    (∀ r, tryRestriction g node = some r →
      processClassExpression g (f+1) node = some (some r)) ∧
    (∀ u us, tryRestriction g node = none → objects g node owlUnionOfN = u :: us →
      processClassExpression g (f+1) node =
        (processList g f (some u)).map (fun ms => some (.union ms))) ∧
    (∀ i is2, tryRestriction g node = none → objects g node owlUnionOfN = [] →
      objects g node owlIntersectionOfN = i :: is2 →
      processClassExpression g (f+1) node =
        (processList g f (some i)).map (fun ms => some (.intersection ms))) ∧
    (∀ c cs2, tryRestriction g node = none → objects g node owlUnionOfN = [] →
      objects g node owlIntersectionOfN = [] →
      objects g node owlComplementOfN = c :: cs2 →
      processClassExpression g (f+1) node =
        some (some (.complement (nodeToStr c)))) ∧
    (∀ o os, tryRestriction g node = none → objects g node owlUnionOfN = [] →
      objects g node owlIntersectionOfN = [] → objects g node owlComplementOfN = [] →
      objects g node owlOneOfN = o :: os →
      processClassExpression g (f+1) node =
        (processList g f (some o)).map (fun ms => some (.enumeration ms))) := by
  have heq := processClassExpression_succ g f node
  refine ⟨?_, ?_, ?_, ?_, ?_, ?_, ?_⟩
  · rw [tryRestriction, List.findSome?_eq_none_iff]
    constructor
    · intro h
      by_cases hp : objects g node owlOnPropertyN = []
      · exact Or.inl hp
      · refine Or.inr fun pr hpr => ?_
        have h2 := h pr hpr
        cases hobj : objects g node pr.1 with
        | nil => rfl
        | cons v vs =>
          rw [hobj] at h2
          cases hpo : objects g node owlOnPropertyN with
          | nil => exact absurd hpo hp
          | cons p ps => rw [hpo] at h2; simp at h2
    · intro h pr hpr
      rcases h with hp | hall2
      · cases hobj : objects g node pr.1 with
        | nil => simp [hobj]
        | cons v vs => simp [hobj, hp]
      · simp [hall2 pr hpr]
  · rw [heq]
    cases htr : tryRestriction g node with
    | some r => simp [htr]
    | none =>
      cases hu : objects g node owlUnionOfN with
      | cons u us => simp [hu, Option.map_eq_some']
      | nil =>
        cases hi : objects g node owlIntersectionOfN with
        | cons i is2 => simp [hi, Option.map_eq_some']
        | nil =>
          cases hc : objects g node owlComplementOfN with
          | cons c cs2 => simp [hc]
          | nil =>
            cases ho : objects g node owlOneOfN with
            | cons o os => simp [ho, Option.map_eq_some']
            | nil => simp [hu, hi, hc, ho]
  · intro r htr
    rw [heq, htr]
  · intro u us htr hu
    rw [heq, htr]
    simp only [hu]
  · intro i is2 htr hu hi
    rw [heq, htr]
    simp only [hu, hi]
  · intro c cs2 htr hu hi hc
    rw [heq, htr]
    simp only [hu, hi, hc]
  · intro o os htr hu hi hc ho
    rw [heq, htr]
    simp only [hu, hi, hc, ho]

/-- C7 witness: with both a someValuesFrom restriction case and a unionOf
present on the same node, decoding returns the restriction — the first
matching case in the fixed order. -/
theorem C7_decode_first_match_witness :
    processClassExpression multiCaseGraph 4 (Node.bnode "x") =
      some (some (PyExpr.restriction "some" "http://ex.org/P" "http://ex.org/A" none)) :=
  (C7_decode_first_match multiCaseGraph 3 (Node.bnode "x")).2.2.1 _ rfl

theorem lookup_flatMap {α β γ : Type} [BEq γ] [LawfulBEq γ] (f : α → List (γ × β)) (k : γ) :
    ∀ l : List α, (l.flatMap f).lookup k = l.findSome? (fun x => (f x).lookup k) := by
  intro l
  induction l with
  | nil => rfl
  | cons a t ih =>
    rw [List.flatMap_cons, List.lookup_append, List.findSome?_cons, ih]
    cases h : (f a).lookup k <;> simp [h, Option.or]

theorem lookup_map_pair {β : Type} (F : (String × EntityData) → β) (k : String) :
    ∀ l : List (String × EntityData),
      (l.map (fun e => (e.1, F e))).lookup k = (l.find? (fun e => k == e.1)).map F := by
  intro l
  induction l with
  | nil => rfl
  | cons a t ih =>
    by_cases h : k == a.1
    · simp [List.lookup, List.find?, h]
    · simp [List.lookup, List.find?, h, ih]

theorem findSome?_unique {α β : Type} (f : α → Option β) (a : α) (b : β) :
    ∀ l : List α, a ∈ l → f a = some b → (∀ x ∈ l, x ≠ a → f x = none) →
      l.findSome? f = some b := by
  intro l
  induction l with
  | nil => intro h; cases h
  | cons c t ih =>
    intro hmem hfa hothers
    rw [List.findSome?_cons]
    by_cases hca : c = a
    · subst hca; rw [hfa]
    · rw [hothers c (List.mem_cons_self c t) hca]
      refine ih ?_ hfa (fun x hx hxa => hothers x (List.mem_cons_of_mem _ hx) hxa)
      rcases List.mem_cons.mp hmem with h | h
      · exact absurd h.symm hca
      · exact h

/-- C5 (amended): the uniqueness resolver groups entities by the
case-insensitive primary-language display name; an entity in a group of
size one keeps its name, and an entity in a larger group receives the
collision label — a registered namespace prefix other than the literal
prefix base when the URI starts with its namespace, else the pseudo
prefix derived from the URI text when that prefix is non-empty, else the
original name unchanged. -/
theorem C5_unique_labels (entities : List (String × EntityData))
    (namespaces : List (String × String))
    (hnd : (entities.map Prod.fst).Nodup) (uri : String) (ed : EntityData)
    (hmem : (uri, ed) ∈ entities) :
    (generateUniqueLabels entities namespaces).lookup uri =
      some (if (entities.filter
              (fun e => displayNameOf e = displayNameOf (uri, ed))).length > 1
            then collisionLabel namespaces uri (getEntityLabel ed "en")
            else getEntityLabel ed "en") := by
  classical
  have huniq : ∀ e ∈ entities, e.1 = uri → e = (uri, ed) :=
    fun e he heq => List.inj_on_of_nodup_map hnd he hmem heq
  have hdnmem : displayNameOf (uri, ed) ∈ (entities.map displayNameOf).dedup :=
    List.mem_dedup.mpr (List.mem_map_of_mem displayNameOf hmem)
  -- find? of the key inside the group of a name
  have hfind : ∀ dn' : String,
      (entities.filter (fun e => displayNameOf e = dn')).find? (fun e => uri == e.1) =
        (if dn' = displayNameOf (uri, ed) then some (uri, ed) else none) := by
    intro dn'
    by_cases hdn' : dn' = displayNameOf (uri, ed)
    · rw [if_pos hdn']
      subst hdn'
      cases hf : (entities.filter
          (fun e => displayNameOf e = displayNameOf (uri, ed))).find?
          (fun e => uri == e.1) with
      | none =>
        exfalso
        have hin : (uri, ed) ∈ entities.filter
            (fun e => displayNameOf e = displayNameOf (uri, ed)) :=
          List.mem_filter.mpr ⟨hmem, by simp⟩
        have := List.find?_eq_none.mp hf (uri, ed) hin
        simp at this
      | some x =>
        have hx1 : x ∈ entities := List.mem_of_mem_filter (List.mem_of_find?_eq_some hf)
        have hx2 := List.find?_some hf
        have hx2' : uri = x.1 := by simpa using hx2
        have hx3 : x = (uri, ed) := huniq x hx1 hx2'.symm
        rw [hx3]
    · rw [if_neg hdn']
      rw [List.find?_eq_none]
      intro x hx hpx
      have hx1 : x ∈ entities := List.mem_of_mem_filter hx
      have hx2 : displayNameOf x = dn' := by
        have := (List.mem_filter.mp hx).2
        simpa using this
      have hpx' : uri = x.1 := by simpa using hpx
      have hx3 : x = (uri, ed) := huniq x hx1 hpx'.symm
      rw [hx3] at hx2
      exact hdn' hx2.symm
  -- lookup distributes over the grouped flatMap
  rw [generateUniqueLabels, nameGroups, List.flatMap_map, lookup_flatMap]
  refine findSome?_unique _ (displayNameOf (uri, ed)) _ _ hdnmem ?_ ?_
  · simp only [Function.comp]
    by_cases hlen : (entities.filter
        (fun e => displayNameOf e = displayNameOf (uri, ed))).length > 1
    · rw [if_pos hlen, if_pos hlen, lookup_map_pair, hfind _, if_pos rfl,
        Option.map_some']
    · rw [if_neg hlen, if_neg hlen, lookup_map_pair, hfind _, if_pos rfl,
        Option.map_some']
  · intro dn' hdn'mem hdn'
    simp only [Function.comp]
    by_cases hlen : (entities.filter (fun e => displayNameOf e = dn')).length > 1
    · rw [if_pos hlen, lookup_map_pair, hfind _, if_neg hdn', Option.map_none']
    · rw [if_neg hlen, lookup_map_pair, hfind _, if_neg hdn', Option.map_none']

/-- C5 witness: of three entities colliding on the case-insensitive name,
one gets a registered-prefix label, one a pseudo-prefix label, and one —
whose URI yields only an empty pseudo-prefix — keeps its original name;
a fourth, uniquely named entity keeps its bare name. -/
theorem C5_unique_labels_witness :
    (generateUniqueLabels collisionEntities collisionNamespaces).lookup
      "http://ex.org/Name" = some "ex:Name" ∧
    (generateUniqueLabels collisionEntities collisionNamespaces).lookup
      "http://other.net/vocab/Name" = some "vocab:name" ∧
    (generateUniqueLabels collisionEntities collisionNamespaces).lookup
      "http://ex.org/Other" = some "Other" ∧
    (generateUniqueLabels collisionEntities collisionNamespaces).lookup
      "http://#Name" = some "Name" := by
  refine ⟨?_, ?_, ?_, ?_⟩
  · exact (C5_unique_labels collisionEntities collisionNamespaces (by decide)
      "http://ex.org/Name" { uri := "http://ex.org/Name", labels := [("en", ["Name"])] }
      (by decide)).trans (by decide)
  · exact (C5_unique_labels collisionEntities collisionNamespaces (by decide)
      "http://other.net/vocab/Name"
      { uri := "http://other.net/vocab/Name", labels := [("en", ["name"])] }
      (by decide)).trans (by decide)
  · exact (C5_unique_labels collisionEntities collisionNamespaces (by decide)
      "http://ex.org/Other" { uri := "http://ex.org/Other", labels := [("en", ["Other"])] }
      (by decide)).trans (by decide)
  · exact (C5_unique_labels collisionEntities collisionNamespaces (by decide)
      "http://#Name" { uri := "http://#Name", labels := [("en", ["Name"])] }
      (by decide)).trans (by decide)

/-- C5 counterexample: the first URI starts with the namespace registered
under the prefix base, so by the claim its collision label would be
base:Name; the code skips the base prefix and derives the pseudo-prefix
ex from the URI text instead. -/
theorem C5_unique_labels_cex :
    (generateUniqueLabels baseEntities baseNamespaces).lookup "http://ex.org/Name" =
      some "ex:Name" ∧ ("ex:Name" : String) ≠ "base:Name" := ⟨by decide, by decide⟩

/-- C9: every tuple in the generic assertions list of a named individual
arises from a triple of that individual whose object is not a blank node,
whose predicate is not owl sameAs, and whose predicate starts with none
of the reserved structural namespaces (rdf, rdfs, dc, dcterms). -/
theorem C9_assertions_exclude_reserved (g : Graph) (defined : List String) (s : Node) :
    ∀ t ∈ (createIndividual g defined s).assertions,
      ∃ p o, (s, p, o) ∈ g.triples ∧ isBNode o = false ∧ p ≠ owlSameAsN ∧
        (∀ ns ∈ excludeNamespaces, pyStartsWith ns (nodeToStr p) = false) ∧
        t = mkAssertion g defined p o := by
  intro t ht
  have ht2 : ∃ po ∈ predicateObjects g s,
      (if assertionKept po.1 po.2 then some (mkAssertion g defined po.1 po.2)
       else none) = some t := by
    simpa [createIndividual, List.mem_filterMap] using ht
  obtain ⟨po, hpo, hcond⟩ := ht2
  have hkept : assertionKept po.1 po.2 = true ∧ mkAssertion g defined po.1 po.2 = t := by
    by_cases hk : assertionKept po.1 po.2
    · rw [if_pos hk] at hcond
      exact ⟨hk, Option.some.inj hcond⟩
    · rw [if_neg hk] at hcond
      cases hcond
  obtain ⟨hk, hmk⟩ := hkept
  have hmem : ∃ tr ∈ g.triples, tr.1 = s ∧ (tr.2.1, tr.2.2) = po := by
    simpa [predicateObjects, List.mem_map, List.mem_filter] using hpo
  obtain ⟨tr, htr, hts, hpoeq⟩ := hmem
  have hks := hk
  simp only [assertionKept, Bool.and_eq_true, decide_eq_true_eq, Bool.not_eq_true',
    List.any_eq_false] at hks
  refine ⟨po.1, po.2, ?_, Bool.eq_false_iff.mpr hks.1, hks.2.1, ?_, hmk.symm⟩
  · have heq : (s, po.1, po.2) = tr := by
      rw [← hpoeq, ← hts]
    rw [heq]
    exact htr
  · intro ns hns
    have hany : excludeNamespaces.any
        (fun ns => pyStartsWith ns (nodeToStr po.1)) = false :=
      Bool.eq_false_iff.mpr hks.2.2
    exact Bool.eq_false_iff.mpr (List.any_eq_false.mp hany ns hns)

/-- C9 witness: the single kept assertion of a concrete individual stems
from a non-reserved, non-sameAs predicate. -/
theorem C9_assertions_exclude_reserved_witness :
    ∃ p o, (Node.uri "http://ex.org/i", p, o) ∈ individualGraph.triples ∧
      isBNode o = false ∧ p ≠ owlSameAsN ∧
      (∀ ns ∈ excludeNamespaces, pyStartsWith ns (nodeToStr p) = false) ∧
      (("http://xmlns.com/foaf/0.1/knows", "http://xmlns.com/foaf/0.1/knows",
        "http://ex.org/j", some "http://ex.org/j") :
        String × String × String × Option String) = mkAssertion individualGraph [] p o :=
  C9_assertions_exclude_reserved individualGraph [] (Node.uri "http://ex.org/i")
    ("http://xmlns.com/foaf/0.1/knows", "http://xmlns.com/foaf/0.1/knows",
      "http://ex.org/j", some "http://ex.org/j") (by decide)

theorem sorted_mergeSort_key {α : Type} (key : α → String) (l : List α) :
    (l.mergeSort (fun a b => decide (key a ≤ key b))).Pairwise
      (fun a b => key a ≤ key b) := by
  have htrans : ∀ (a b c : α), (fun a b => decide (key a ≤ key b)) a b →
      (fun a b => decide (key a ≤ key b)) b c →
      (fun a b => decide (key a ≤ key b)) a c := by
    intro a b c hab hbc
    simp only [decide_eq_true_eq] at *
    exact le_trans hab hbc
  have htotal : ∀ (a b : α), ((fun a b => decide (key a ≤ key b)) a b ||
      (fun a b => decide (key a ≤ key b)) b a) = true := by
    intro a b
    simp only [Bool.or_eq_true, decide_eq_true_eq]
    exact le_total (key a) (key b)
  have h := List.sorted_mergeSort htrans htotal l
  exact h.imp (fun hab => by simpa using hab)

/-- C10: every entity-listing operation returns its entities sorted in
ascending order by display label, with the URI as the sort key when the
label is absent or empty (the Python `label or uri` key). -/
theorem C10_listings_sorted :
    (∀ (g : Graph) (defined : List String) (fuel : Nat) (l : List PClass),
      getClasses g defined fuel = some l →
      l.Pairwise (fun a b => sortKeyE a.toElement ≤ sortKeyE b.toElement)) ∧
    (∀ (g : Graph) (defined : List String),
      (getObjectProperties g defined).Pairwise
        (fun a b => sortKeyE a.toElement ≤ sortKeyE b.toElement)) ∧
    (∀ (g : Graph) (defined : List String),
      (getDatatypeProperties g defined).Pairwise
        (fun a b => sortKeyE a.toElement ≤ sortKeyE b.toElement)) ∧
    (∀ (g : Graph) (defined : List String),
      (getAnnotationProperties g defined).Pairwise
        (fun a b => sortKeyE a.toElement ≤ sortKeyE b.toElement)) ∧
    (∀ (g : Graph) (defined : List String),
      (getProperties g defined).Pairwise
        (fun a b => sortKeyE a.toElement ≤ sortKeyE b.toElement)) ∧
    (∀ (g : Graph) (defined : List String),
      (getNamedIndividuals g defined).Pairwise
        (fun a b => sortKeyE a.toElement ≤ sortKeyE b.toElement)) := by
  refine ⟨?_, ?_, ?_, ?_, ?_, ?_⟩
  · intro g defined fuel l hl
    unfold getClasses at hl
    obtain ⟨cs, hcs, hrest⟩ := Option.map_eq_some'.mp hl
    rw [← hrest]
    exact sorted_mergeSort_key (fun x : PClass => sortKeyE x.toElement) cs
  · intro g defined
    exact sorted_mergeSort_key (fun x : PProperty => sortKeyE x.toElement) _
  · intro g defined
    exact sorted_mergeSort_key (fun x : PProperty => sortKeyE x.toElement) _
  · intro g defined
    exact sorted_mergeSort_key (fun x : PProperty => sortKeyE x.toElement) _
  · intro g defined
    exact sorted_mergeSort_key (fun x : PProperty => sortKeyE x.toElement) _
  · intro g defined
    exact sorted_mergeSort_key (fun x : PIndividual => sortKeyE x.toElement) _

/-- C10 witness: the class listing of a concrete one-class graph,
together with its sortedness derived from the theorem. -/
theorem C10_listings_sorted_witness :
    getClasses oneClassGraph [] 1 = some [oneClassRecord] ∧
    ([oneClassRecord] : List PClass).Pairwise
      (fun a b => sortKeyE a.toElement ≤ sortKeyE b.toElement) := by
  have h : getClasses oneClassGraph [] 1 = some ([oneClassRecord].mergeSort
      (fun a b => decide (sortKeyE a.toElement ≤ sortKeyE b.toElement))) := rfl
  rw [List.mergeSort_singleton] at h
  exact ⟨h, C10_listings_sorted.1 oneClassGraph [] 1 [oneClassRecord] h⟩

